import Mathlib

/-!
Verification of the Go engine core (`engine/board.rs`, `engine/game.rs`,
`engine/move_generation.rs`) of the gnugo_rust repository.

The Rust code is shallowly embedded: `Vec<Vec<Stone>>` becomes
`List (List Stone)` indexed as `grid[y][x]`, mutation becomes explicit state
passing, `Result<(), &str>` becomes `Except String Unit`, and the partial
(panicking) index operations of Rust are modelled by `Option`-returning
functions where a claim is about the panic itself, and by `getD`/`List.set`
total reads/writes at the call sites where the Rust code has already
established the bounds.  `usize` becomes `Nat`, the `isize` neighbour
arithmetic becomes `Int`.
-/

namespace GnuGo

/-- Rust `Stone` from `engine/board.rs`: tri-state cell value. -/
inductive Stone where
  | Empty : Stone
  | Black : Stone
  | White : Stone
  deriving DecidableEq, Repr

/-- Rust `StoneGroup` from `engine/board.rs`: a connected group with its colour,
its positions, and its liberty count. -/
structure StoneGroup where
  color : Stone
  positions : List (Nat × Nat)
  liberties : Nat
  deriving DecidableEq, Repr

/-- Rust `Board` from `engine/board.rs`.  `grid` is row-major: cell `(x, y)` is
`grid[y][x]` exactly as in the Rust source.  `captured` is the
`[usize; 2]` pair `[black, white]`. -/
structure Board where
  grid : List (List Stone)
  size : Nat
  captured : Nat × Nat
  ko_point : Option (Nat × Nat)
  deriving DecidableEq, Repr

namespace Board

/-- Rust `Board::new`: an all-Empty `size × size` grid, zero captures, no ko. -/
def new (size : Nat) : Board :=
  { grid := List.replicate size (List.replicate size Stone.Empty)
    size := size
    captured := (0, 0)
    ko_point := none }

/-- Total in-bounds read `self.grid[y][x]`, used at the Rust call sites that
index only after the bounds have been checked (all boards built by the
public API are square `size × size`, so the `getD` defaults are never hit
there). -/
def getCell (b : Board) (x y : Nat) : Stone :=
  (b.grid.getD y []).getD x Stone.Empty

/-- Rust `Board::get_stone`, modelled with Rust's panicking index semantics:
`none` is the model of a panic of `self.grid[y][x]` on an out-of-bounds
coordinate, `some s` the normal return. -/
def get_stone? (b : Board) (x y : Nat) : Option Stone :=
  (b.grid.get? y).bind fun row => row.get? x

/-- Total in-bounds write `self.grid[y][x] = stone`. -/
def writeCell (b : Board) (x y : Nat) (s : Stone) : Board :=
  { b with grid := b.grid.set y ((b.grid.getD y []).set x s) }

/-- Rust `Board::set_stone`, modelled with Rust's panicking index semantics:
`none` models the panic of `self.grid[y][x] = stone` on an out-of-bounds
coordinate. -/
def set_stone? (b : Board) (x y : Nat) (s : Stone) : Option Board :=
  if y < b.grid.length ∧ x < (b.grid.getD y []).length then
    some (b.writeCell x y s)
  else
    none

/-- Rust `Board::get_captured`. -/
def get_captured (b : Board) : Nat × Nat := b.captured

/-- Rust `Board::get_ko_point`. -/
def get_ko_point (b : Board) : Option (Nat × Nat) := b.ko_point

/-- Rust `Board::set_ko_point`. -/
def set_ko_point (b : Board) (x y : Nat) : Board :=
  { b with ko_point := some (x, y) }

/-- Rust `Board::clear_ko_point`. -/
def clear_ko_point (b : Board) : Board :=
  { b with ko_point := none }

/-- The `[(0, -1), (0, 1), (-1, 0), (1, 0)]` neighbour offsets used
throughout `engine/board.rs`. -/
def directions : List (Int × Int) :=
  [(0, -1), (0, 1), (-1, 0), (1, 0)]

/-- The Rust bounds test `nx >= 0 && nx < size && ny >= 0 && ny < size`
on the `isize` neighbour coordinates. -/
def inBounds (size : Nat) (nx ny : Int) : Bool :=
  decide (0 ≤ nx ∧ nx < (size : Int) ∧ 0 ≤ ny ∧ ny < (size : Int))

/-- One pass of the `while let Some((cx, cy)) = queue.pop()` loop of
`Board::find_group`.  The queue is a LIFO stack (Rust `Vec::pop` takes the
most recently pushed element); it is represented head-first, so pushing
conses and popping takes the head, preserving the Rust visit order.
`fuel` bounds the iteration count; `size * size` iterations always suffice
because every cell is enqueued at most once (guarded by `visited`). -/
def bfsLoop (b : Board) (color : Stone) :
    Nat → List (Nat × Nat) → List (List Bool) → List (Nat × Nat) →
    List (Nat × Nat) :=
  fun fuel queue visited positions =>
    match fuel, queue with
    | 0, _ => positions
    | _ + 1, [] => positions
    | fuel + 1, (cx, cy) :: rest =>
      let positions := positions ++ [(cx, cy)]
      let step := fun (st : List (Nat × Nat) × List (List Bool)) (d : Int × Int) =>
        let nx : Int := (cx : Int) + d.1
        let ny : Int := (cy : Int) + d.2
        if inBounds b.size nx ny then
          let nxn := nx.toNat
          let nyn := ny.toNat
          if ¬ (st.2.getD nyn []).getD nxn false ∧ b.getCell nxn nyn = color then
            ((nxn, nyn) :: st.1, st.2.set nyn ((st.2.getD nyn []).set nxn true))
          else st
        else st
      let next := directions.foldl step (rest, visited)
      bfsLoop b color fuel next.1 next.2 positions

/-- Rust `Board::count_liberties_for_positions`: distinct Empty neighbours of the
position set, deduplicated through the `checked` matrix. -/
def count_liberties_for_positions (b : Board) (positions : List (Nat × Nat)) : Nat :=
  (positions.foldl
    (fun (acc : Nat × List (List Bool)) (p : Nat × Nat) =>
      directions.foldl
        (fun (acc : Nat × List (List Bool)) (d : Int × Int) =>
          let nx : Int := (p.1 : Int) + d.1
          let ny : Int := (p.2 : Int) + d.2
          if inBounds b.size nx ny then
            let nxn := nx.toNat
            let nyn := ny.toNat
            if ¬ (acc.2.getD nyn []).getD nxn false ∧ b.getCell nxn nyn = Stone.Empty then
              (acc.1 + 1, acc.2.set nyn ((acc.2.getD nyn []).set nxn true))
            else acc
          else acc)
        acc)
    (0, List.replicate b.size (List.replicate b.size false))).1

/-- Rust `Board::find_group`: flood fill of the maximal 4-connected same-colour
component containing `(x, y)`, `none` on an out-of-bounds or Empty seed. -/
def find_group (b : Board) (x y : Nat) : Option StoneGroup :=
  if x ≥ b.size ∨ y ≥ b.size ∨ b.getCell x y = Stone.Empty then
    none
  else
    let color := b.getCell x y
    let visited0 :=
      (List.replicate b.size (List.replicate b.size false)).set y
        ((List.replicate b.size false).set x true)
    let positions := bfsLoop b color (b.size * b.size) [(x, y)] visited0 []
    some { color := color
           positions := positions
           liberties := b.count_liberties_for_positions positions }

/-- Rust `Board::capture_group`: blank every position of the group and add its
size to the captured total of the group's colour. -/
def capture_group (b : Board) (g : StoneGroup) : Board :=
  let count := g.positions.length
  let b := g.positions.foldl (fun bd p => bd.writeCell p.1 p.2 Stone.Empty) b
  match g.color with
  | Stone.Black => { b with captured := (b.captured.1 + count, b.captured.2) }
  | Stone.White => { b with captured := (b.captured.1, b.captured.2 + count) }
  | Stone.Empty => b

/-- State threaded through the capture scan of `Board::place_stone`:
the board so far, `captured_any`, `captured_single_stone`, and
`capture_position`. -/
structure CaptureScan where
  board : Board
  captured_any : Bool
  captured_single_stone : Bool
  capture_position : Nat × Nat
  deriving DecidableEq, Repr

/-- One direction of the capture scan of `Board::place_stone` (lines
150–175): if the in-bounds neighbour holds the opponent colour and its
group has zero liberties, record a single-stone capture when the group has
size one and remove the group. -/
def captureStep (opponent : Stone) (x y : Nat) (st : CaptureScan) (d : Int × Int) :
    CaptureScan :=
  let nx : Int := (x : Int) + d.1
  let ny : Int := (y : Int) + d.2
  if inBounds st.board.size nx ny then
    let nxn := nx.toNat
    let nyn := ny.toNat
    if st.board.getCell nxn nyn = opponent then
      match st.board.find_group nxn nyn with
      | some group =>
        if group.liberties = 0 then
          { board := st.board.capture_group group
            captured_any := true
            captured_single_stone :=
              if group.positions.length = 1 then true else st.captured_single_stone
            capture_position :=
              if group.positions.length = 1 then group.positions.getD 0 (0, 0)
              else st.capture_position }
        else st
      | none => st
    else st
  else st

/-- Rust `Board::place_stone`: the transactional placement.  Returns the Rust
`Result` together with the post-call board.  Mirrors the source order
exactly: bounds, occupied, ko, grid write, Empty-colour rejection, capture
scan over the four directions, ko update, suicide check. -/
def place_stone (b : Board) (x y : Nat) (stone : Stone) :
    Except String Unit × Board :=
  if x ≥ b.size ∨ y ≥ b.size then
    (Except.error "Position out of bounds", b)
  else if b.getCell x y ≠ Stone.Empty then
    (Except.error "Position already occupied", b)
  else if b.ko_point = some (x, y) then
    (Except.error "Ko threat violation", b)
  else
    let b1 := b.writeCell x y stone
    match stone with
    | Stone.Empty => (Except.error "Cannot place empty stone", b1)
    | _ =>
      let opponent := match stone with
        | Stone.Black => Stone.White
        | _ => Stone.Black
      let scan := directions.foldl (captureStep opponent x y)
        { board := b1
          captured_any := false
          captured_single_stone := false
          capture_position := (0, 0) }
      let b2 :=
        if scan.captured_single_stone then
          scan.board.set_ko_point scan.capture_position.1 scan.capture_position.2
        else
          scan.board.clear_ko_point
      if ¬ scan.captured_any then
        match b2.find_group x y with
        | some own_group =>
          if own_group.liberties = 0 then
            (Except.error "Suicide move not allowed", b2.writeCell x y Stone.Empty)
          else
            (Except.ok (), b2)
        | none => (Except.ok (), b2)
      else
        (Except.ok (), b2)

/-- Rust `Board::stones_on_board`: number of cells of the given colour. -/
def stones_on_board (b : Board) (color : Stone) : Nat :=
  b.grid.foldl
    (fun acc row => row.foldl (fun acc s => if s = color then acc + 1 else acc) acc)
    0

/-- Well-formedness every Rust `Board` value enjoys by construction
(`grid` is private and only ever built by `Board::new` as `size × size`). -/
def wf (b : Board) : Prop :=
  b.grid.length = b.size ∧ ∀ row ∈ b.grid, row.length = b.size

instance (b : Board) : Decidable b.wf := by
  unfold wf
  infer_instance

end Board

/-- Rust `GameStatus` from `engine/game.rs`. -/
inductive GameStatus where
  | InProgress : GameStatus
  | Ended : GameStatus
  | Resigned : GameStatus
  deriving DecidableEq, Repr

/-- Rust `GameState` from `engine/game.rs`: the snapshot pushed onto the undo
history before a move attempt. -/
structure GameState where
  board : Board
  current_player : Bool
  captured_stones : Nat × Nat
  deriving DecidableEq, Repr

/-- Rust `Game` from `engine/game.rs`.  `current_player = true` is Black.
`captured_stones` is the `[u32; 2]` pair `[black, white]`.  `history` is the
Rust `Vec` in push order: the most recent snapshot is the last element. -/
structure Game where
  board : Board
  current_player : Bool
  history : List GameState
  captured_stones : Nat × Nat
  pass_count : Nat
  status : GameStatus
  winner : Option Stone
  deriving DecidableEq, Repr

namespace Game

/-- Rust `Game::new`: empty board, Black to move, empty history. -/
def new (size : Nat) : Game :=
  { board := Board.new size
    current_player := true
    history := []
    captured_stones := (0, 0)
    pass_count := 0
    status := GameStatus.InProgress
    winner := none }

/-- Rust `Game::current_player` (the accessor returning a `Stone`). -/
def current_stone (g : Game) : Stone :=
  if g.current_player then Stone.Black else Stone.White

/-- Rust `Game::update_captured_stones`: copy the board's capture totals into the
game-level counters. -/
def update_captured_stones (g : Game) : Game :=
  { g with captured_stones := g.board.get_captured }

/-- Rust `Game::reset_pass_count`. -/
def reset_pass_count (g : Game) : Game :=
  { g with pass_count := 0 }

/-- Rust `Game::make_move`: reject when the game is over; otherwise push a
snapshot, delegate to `Board::place_stone` for the current player's colour,
and on success sync captures, reset the pass counter, and flip the player;
on failure pop the snapshot (the board keeps whatever `place_stone` left)
and propagate the error. -/
def make_move (g : Game) (row col : Nat) : Except String Unit × Game :=
  if g.status ≠ GameStatus.InProgress then
    (Except.error "Game is already over", g)
  else
    let history1 := g.history ++
      [{ board := g.board
         current_player := g.current_player
         captured_stones := g.captured_stones : GameState }]
    let stone := if g.current_player then Stone.Black else Stone.White
    match g.board.place_stone row col stone with
    | (Except.ok _, b1) =>
      let g1 := { g with board := b1, history := history1 }
      let g2 := g1.update_captured_stones.reset_pass_count
      (Except.ok (), { g2 with current_player := !g2.current_player })
    | (Except.error e, b1) =>
      (Except.error e, { g with board := b1, history := history1.dropLast })

/-- Rust `Game::undo_move`: pop the most recent snapshot (Rust `Vec::pop` takes
the last element) and restore board, player and capture counts from it;
`none` when the history is empty. -/
def undo_move (g : Game) : Option Unit × Game :=
  match g.history.getLast? with
  | some last =>
    (some (), { g with board := last.board
                       current_player := last.current_player
                       captured_stones := last.captured_stones
                       history := g.history.dropLast })
  | none => (none, g)

/-- Rust `Game::captured`. -/
def captured (g : Game) (color : Stone) : Nat :=
  match color with
  | Stone.Black => g.captured_stones.1
  | Stone.White => g.captured_stones.2
  | _ => 0

/-- Rust `Game::determine_winner` (the winner it assigns): stones on board plus
the same-index capture counter per colour, higher total wins, tie is
`none`. -/
def determine_winner (g : Game) : Option Stone :=
  let black_score := g.board.stones_on_board Stone.Black + g.captured_stones.1
  let white_score := g.board.stones_on_board Stone.White + g.captured_stones.2
  if black_score > white_score then some Stone.Black
  else if white_score > black_score then some Stone.White
  else none

/-- Rust `Game::pass`: reject when the game is over; otherwise bump the
consecutive-pass counter, end the game with a computed winner when it
reaches two, and flip the player. -/
def pass (g : Game) : Except String Unit × Game :=
  if g.status ≠ GameStatus.InProgress then
    (Except.error "Game is already over", g)
  else
    let g1 := { g with pass_count := g.pass_count + 1 }
    let g2 :=
      if g1.pass_count ≥ 2 then
        { g1 with status := GameStatus.Ended, winner := g1.determine_winner }
      else g1
    (Except.ok (), { g2 with current_player := !g2.current_player })

/-- Rust `Game::resign`: reject when the game is over; otherwise the game is
Resigned and the opponent of the player to move wins. -/
def resign (g : Game) : Except String Unit × Game :=
  if g.status ≠ GameStatus.InProgress then
    (Except.error "Game is already over", g)
  else
    (Except.ok (),
     { g with status := GameStatus.Resigned
              winner := some (match g.current_stone with
                              | Stone.Black => Stone.White
                              | Stone.White => Stone.Black
                              | _ => Stone.Empty) })

/-- Rust `Game::is_game_over`. -/
def is_game_over (g : Game) : Bool :=
  g.status ≠ GameStatus.InProgress

end Game

namespace MoveGenerator

/-- Rust `MoveGenerator::is_valid_move` from `engine/move_generation.rs`: the
simplified legality pre-check.  Bounds, emptiness, then: any empty or
friendly neighbour counts as a liberty; with no such neighbour, any
adjacent opponent stone is (without checking its group's liberties) taken
as a capture and the move is declared valid; otherwise invalid.  All
`get_stone` calls here are guarded in-bounds, so the total `getCell` read
is the exact semantics. -/
def is_valid_move (board : Board) (row col : Nat) (player : Stone) : Bool :=
  if row ≥ board.size ∨ col ≥ board.size then
    false
  else if board.getCell row col ≠ Stone.Empty then
    false
  else
    let friendly := fun (s : Stone) => s = Stone.Empty ∨ s = player
    let has_liberty :=
      (row > 0 ∧ friendly (board.getCell (row - 1) col)) ∨
      (row < board.size - 1 ∧ friendly (board.getCell (row + 1) col)) ∨
      (col > 0 ∧ friendly (board.getCell row (col - 1))) ∨
      (col < board.size - 1 ∧ friendly (board.getCell row (col + 1)))
    if ¬ has_liberty then
      let opponent := match player with
        | Stone.Black => Stone.White
        | Stone.White => Stone.Black
        | _ => Stone.Empty
      decide ((row > 0 ∧ board.getCell (row - 1) col = opponent) ∨
              (row < board.size - 1 ∧ board.getCell (row + 1) col = opponent) ∨
              (col > 0 ∧ board.getCell row (col - 1) = opponent) ∨
              (col < board.size - 1 ∧ board.getCell row (col + 1) = opponent))
    else
      true

end MoveGenerator

instance {ε α : Type} [DecidableEq ε] [DecidableEq α] : DecidableEq (Except ε α) :=
  fun x y =>
    match x, y with
    | Except.ok a, Except.ok b =>
      if h : a = b then isTrue (by rw [h])
      else isFalse (by intro hc; cases hc; exact h rfl)
    | Except.ok _, Except.error _ => isFalse (by intro hc; cases hc)
    | Except.error _, Except.ok _ => isFalse (by intro hc; cases hc)
    | Except.error e, Except.error f =>
      if h : e = f then isTrue (by rw [h])
      else isFalse (by intro hc; cases hc; exact h rfl)

/-- Whether a Rust `Result` is `Ok`. -/
def accepted (r : Except String Unit) : Bool :=
  match r with
  | Except.ok _ => true
  | Except.error _ => false

/-- Replay of a list of `make_move` calls from a game state; `none` as soon
as one call is rejected, mirroring a driver that stops at the first
legality failure. -/
def playAll : Game → List (Nat × Nat) → Option Game
  | g, [] => some g
  | g, m :: ms =>
    match g.make_move m.1 m.2 with
    | (Except.ok _, g1) => playAll g1 ms
    | (Except.error _, _) => none

/-- Iterated `undo_move`: `undoIter g n` is the state after calling
`undo_move` `n` times starting from `g`. -/
def undoIter (g : Game) : Nat → Game
  | 0 => g
  | n + 1 => ((undoIter g n).undo_move).2

/-- Flags a freshly created game has and that every accepted `make_move`
preserves: zero consecutive passes, in progress, no winner. -/
def Game.movesOnlyFlags (g : Game) : Prop :=
  g.pass_count = 0 ∧ g.status = GameStatus.InProgress ∧ g.winner = none

/-- Setting a list entry to the value it already holds is the identity. -/
theorem list_set_get? {α : Type} (l : List α) (n : Nat) (a : α)
    (h : l.get? n = some a) : l.set n a = l := by
  induction l generalizing n with
  | nil => simp at h
  | cons x xs ih =>
    cases n with
    | zero => simp at h; simp [List.set, h]
    | succ m =>
      rw [List.get?_cons_succ] at h
      simp [List.set, ih m h]

/-- Board exercising the Suicide failure path of `Board::place_stone` with a
live ko point: 3×3, White at (1,2) and (2,1), ko point (0,0).  Black at
(2,2) captures nothing (both adjacent White stones keep outside liberties)
and its own group has zero liberties. -/
def c1Board : Board :=
  (((Board.new 3).writeCell 1 2 Stone.White).writeCell 2 1 Stone.White).set_ko_point 0 0

/-- C1: the claim that every rejected `place_stone` call leaves the entire
`Board` value (grid, captured counts, and ko point) unchanged is violated
by the Suicide path: the rejected suicide at (2,2) restores the grid and
the capture counts but clears the pre-existing ko point, because the ko
update of `place_stone` runs before the suicide check. -/
theorem c1_suicide_rejection_clears_ko :
    (c1Board.place_stone 2 2 Stone.Black).1 = Except.error "Suicide move not allowed" ∧
    (c1Board.place_stone 2 2 Stone.Black).2.grid = c1Board.grid ∧
    (c1Board.place_stone 2 2 Stone.Black).2.captured = c1Board.captured ∧
    c1Board.ko_point = some (0, 0) ∧
    (c1Board.place_stone 2 2 Stone.Black).2.ko_point = none := by
  decide

/-- Board exercising a double single-stone capture: 5×5, White single stones
at (2,1) and (2,3), each with (2,2) as its only liberty, Black stones
completing both surrounds.  Black at (2,2) removes both White stones — two
opponent stones in total, in two one-stone groups. -/
def c2Board : Board :=
  ((((((((Board.new 5).writeCell 2 1 Stone.White).writeCell 2 3 Stone.White).writeCell
    2 0 Stone.Black).writeCell 1 1 Stone.Black).writeCell 3 1 Stone.Black).writeCell
    2 4 Stone.Black).writeCell 1 3 Stone.Black).writeCell 3 3 Stone.Black

/-- C2: the claim that after an accepted placement the ko point is `Some p`
iff exactly one opponent stone in total was removed is violated: the
placement at (2,2) removes two White stones in total (capture counts go
from (0,0) to (0,2), both cells become Empty), yet the ko point is set to
(2,3) because `place_stone` tracks only whether some captured group had
size one, not the total number of stones removed. -/
theorem c2_double_single_capture_sets_ko :
    (c2Board.place_stone 2 2 Stone.Black).1 = Except.ok () ∧
    c2Board.captured = (0, 0) ∧
    (c2Board.place_stone 2 2 Stone.Black).2.captured = (0, 2) ∧
    (c2Board.place_stone 2 2 Stone.Black).2.getCell 2 1 = Stone.Empty ∧
    (c2Board.place_stone 2 2 Stone.Black).2.getCell 2 3 = Stone.Empty ∧
    (c2Board.place_stone 2 2 Stone.Black).2.ko_point = some (2, 3) := by
  decide

/-- C9: the simplified legality pre-check `MoveGenerator::is_valid_move`
disagrees with the authoritative `Board::place_stone`: on a 3×3 board with
White at (0,1) and (1,0), the Black move at (0,0) is declared valid by the
pre-check (an adjacent opponent stone is taken as a capture without
checking that group's liberties) while the transactional check rejects it
as suicide. -/
theorem c9_pre_check_disagrees_with_place_stone :
    ∃ (b : Board) (r c : Nat) (p : Stone) (e : String),
      MoveGenerator.is_valid_move b r c p = true ∧
      (b.place_stone r c p).1 = Except.error e :=
  ⟨((Board.new 3).writeCell 0 1 Stone.White).writeCell 1 0 Stone.White, 0, 0,
    Stone.Black, "Suicide move not allowed", by decide, by decide⟩

/-- In-progress game with a live ko point at (1,1), used to refute the claim
that a pass clears the ko point. -/
def c3Game : Game :=
  { Game.new 3 with board := (Board.new 3).set_ko_point 1 1 }

/-- C3 counterexample: on an in-progress game whose board has ko point
(1,1), `pass()` is accepted and afterwards `get_ko_point` still returns
`some (1,1)`, not `none` — `Game::pass` never touches the board. -/
theorem c3_pass_clears_ko_counterexample :
    c3Game.status = GameStatus.InProgress ∧
    c3Game.board.get_ko_point = some (1, 1) ∧
    (c3Game.pass).1 = Except.ok () ∧
    (c3Game.pass).2.board.get_ko_point = some (1, 1) := by
  decide

/-- C3 amended: an accepted `pass()` leaves the ko point (indeed the whole
board) unchanged: `get_ko_point` returns after the pass exactly what it
returned before. -/
theorem c3_pass_preserves_ko (g : Game) (h : g.status = GameStatus.InProgress) :
    (g.pass).1 = Except.ok () ∧
    (g.pass).2.board.get_ko_point = g.board.get_ko_point := by
  have hne : ¬ g.status ≠ GameStatus.InProgress := by simp [h]
  by_cases h2 : g.pass_count + 1 ≥ 2 <;>
    simp [Game.pass, hne, h2, Board.get_ko_point]

/-- Witness for `c3_pass_preserves_ko` at the concrete game `c3Game`. -/
theorem c3_pass_preserves_ko_witness :
    c3Game.status = GameStatus.InProgress ∧
    (c3Game.pass).1 = Except.ok () ∧
    (c3Game.pass).2.board.get_ko_point = c3Game.board.get_ko_point :=
  ⟨by decide, (c3_pass_preserves_ko c3Game (by decide)).1,
    (c3_pass_preserves_ko c3Game (by decide)).2⟩

/-- C4 counterexample: an accepted `pass()` does not grow the undo history:
from a fresh game (history length 0) the pass is accepted and the history
length is still 0, not 1 — `Game::pass` pushes no snapshot. -/
theorem c4_pass_pushes_history_counterexample :
    ((Game.new 3).pass).1 = Except.ok () ∧
    (Game.new 3).history.length = 0 ∧
    ((Game.new 3).pass).2.history.length = 0 := by
  decide

/-- C4 amended: the undo history length changes only through `make_move`
and `undo_move`: an accepted `make_move` grows it by one, a rejected one
leaves it unchanged, `pass` and `resign` never change it, and `undo_move`
shrinks it by one (truncated at zero when the history is empty).  Hence the
length equals the number of accepted moves minus the undos — accepted
passes do not count. -/
theorem c4_history_length_per_operation (g : Game) (r c : Nat) :
    ((g.make_move r c).2.history.length =
      if accepted (g.make_move r c).1 then g.history.length + 1
      else g.history.length) ∧
    (g.pass).2.history.length = g.history.length ∧
    (g.resign).2.history.length = g.history.length ∧
    (g.undo_move).2.history.length = g.history.length - 1 := by
  refine ⟨?_, ?_, ?_, ?_⟩
  · unfold Game.make_move
    by_cases hs : g.status = GameStatus.InProgress
    · simp only [hs, ne_eq, not_true_eq_false, if_false]
      rcases hps : g.board.place_stone r c
          (if g.current_player then Stone.Black else Stone.White) with ⟨res, b1⟩
      cases res with
      | ok u =>
        simp [hps, accepted, Game.update_captured_stones, Game.reset_pass_count]
      | error e =>
        simp [hps, accepted, List.dropLast_concat]
    · simp [hs, accepted]
  · by_cases hs : g.status ≠ GameStatus.InProgress
    · simp [Game.pass, hs]
    · by_cases h2 : g.pass_count + 1 ≥ 2 <;> simp [Game.pass, hs, h2]
  · by_cases hs : g.status ≠ GameStatus.InProgress <;> simp [Game.resign, hs]
  · unfold Game.undo_move
    rcases hl : g.history.getLast? with _ | last
    · have hnil : g.history = [] := by
        cases hh : g.history with
        | nil => rfl
        | cons a as => rw [hh] at hl; simp [List.getLast?] at hl
      simp [hnil]
    · simp [List.length_dropLast]

/-- C5 counterexample: `Board::get_stone` does not validate bounds — on a
5×5 board the read at (5,0) indexes `grid[0][5]` directly and panics
(modelled by `get_stone? = none`) instead of returning normally. -/
theorem c5_get_stone_panics_counterexample :
    (Board.new 5).size = 5 ∧
    (Board.new 5).get_stone? 5 0 = none ∧
    (Board.new 5).set_stone? 5 0 Stone.Black = none := by
  decide

/-- C5 amended: for a malformed coordinate (either axis at or beyond
`size`), `place_stone` validates bounds first and returns the OutOfBounds
error with the board untouched, while the unchecked accessors `get_stone`
and `set_stone` panic (modelled by `none`). -/
theorem c5_out_of_bounds_behaviour (b : Board) (x y : Nat) (s : Stone)
    (hwf : b.wf) (h : b.size ≤ x ∨ b.size ≤ y) :
    b.place_stone x y s = (Except.error "Position out of bounds", b) ∧
    b.get_stone? x y = none ∧
    b.set_stone? x y s = none := by
  obtain ⟨hlen, hrows⟩ := hwf
  refine ⟨?_, ?_, ?_⟩
  · unfold Board.place_stone
    rw [if_pos]
    rcases h with h | h
    · exact Or.inl h
    · exact Or.inr h
  · unfold Board.get_stone?
    rcases h with h | h
    · cases hy : b.grid.get? y with
      | none => rfl
      | some row =>
        have hmem : row ∈ b.grid := List.get?_mem hy
        have hrl : row.length = b.size := hrows row hmem
        have hx : row.get? x = none := by rw [List.get?_eq_none]; omega
        simpa using hx
    · have hy : b.grid.get? y = none := by rw [List.get?_eq_none]; omega
      rw [hy]
      rfl
  · unfold Board.set_stone?
    rw [if_neg]
    rintro ⟨h1, h2⟩
    rcases h with h | h
    · cases hy : b.grid.get? y with
      | none =>
        have : b.grid.length ≤ y := by rw [← List.get?_eq_none]; exact hy
        omega
      | some row =>
        have hmem : row ∈ b.grid := List.get?_mem hy
        have hrl : row.length = b.size := hrows row hmem
        have hgd : b.grid.getD y [] = row := by
          show (b.grid.get? y).getD [] = row
          rw [hy]; rfl
        rw [hgd] at h2
        omega
    · omega

/-- Witness for `c5_out_of_bounds_behaviour` at a 3×3 board and the
out-of-bounds coordinate (3,0). -/
theorem c5_out_of_bounds_behaviour_witness :
    ((Board.new 3).wf ∧ ((Board.new 3).size ≤ 3 ∨ (Board.new 3).size ≤ 0)) ∧
    (Board.new 3).place_stone 3 0 Stone.Black =
      (Except.error "Position out of bounds", Board.new 3) ∧
    (Board.new 3).get_stone? 3 0 = none ∧
    (Board.new 3).set_stone? 3 0 Stone.Black = none :=
  ⟨⟨by decide, by decide⟩,
    c5_out_of_bounds_behaviour (Board.new 3) 3 0 Stone.Black (by decide) (by decide)⟩

/-- C10: on any well-formed board, placing `Stone::Empty` at an in-bounds,
empty, non-ko coordinate is rejected with "Cannot place empty stone" and
the board — grid, captured counts, and ko point — is returned unchanged
(the grid write preceding the rejection stores `Empty` into a cell that is
already `Empty`). -/
theorem c10_place_empty_stone_rejected (b : Board) (x y : Nat)
    (hwf : b.wf) (hx : x < b.size) (hy : y < b.size)
    (hempty : b.getCell x y = Stone.Empty)
    (hko : b.ko_point ≠ some (x, y)) :
    b.place_stone x y Stone.Empty = (Except.error "Cannot place empty stone", b) := by
  obtain ⟨hlen, hrows⟩ := hwf
  have hb1 : b.writeCell x y Stone.Empty = b := by
    cases hrow : b.grid.get? y with
    | none =>
      have : b.grid.length ≤ y := by rw [← List.get?_eq_none]; exact hrow
      omega
    | some row =>
      have hmem : row ∈ b.grid := List.get?_mem hrow
      have hrl : row.length = b.size := hrows row hmem
      have hgd : b.grid.getD y [] = row := by
        show (b.grid.get? y).getD [] = row
        rw [hrow]; rfl
      have hcell : row.get? x = some Stone.Empty := by
        unfold Board.getCell at hempty
        rw [hgd] at hempty
        have hgetd : row.getD x Stone.Empty = (row.get? x).getD Stone.Empty := rfl
        rw [hgetd] at hempty
        cases hgx : row.get? x with
        | none =>
          have : row.length ≤ x := by rw [← List.get?_eq_none]; exact hgx
          omega
        | some st => rw [hgx] at hempty; simp at hempty; rw [hempty]
      unfold Board.writeCell
      rw [hgd, list_set_get? row x Stone.Empty hcell, list_set_get? b.grid y row hrow]
  unfold Board.place_stone
  rw [if_neg (by omega)]
  rw [if_neg (by simp [hempty])]
  rw [if_neg hko]
  dsimp only
  rw [hb1]

/-- Witness for `c10_place_empty_stone_rejected` at the centre of a fresh
3×3 board. -/
theorem c10_place_empty_stone_rejected_witness :
    ((Board.new 3).wf ∧ (1 : Nat) < (Board.new 3).size ∧ (1 : Nat) < (Board.new 3).size ∧
      (Board.new 3).getCell 1 1 = Stone.Empty ∧ (Board.new 3).ko_point ≠ some (1, 1)) ∧
    (Board.new 3).place_stone 1 1 Stone.Empty =
      (Except.error "Cannot place empty stone", Board.new 3) :=
  ⟨⟨by decide, by decide, by decide, by decide, by decide⟩,
    c10_place_empty_stone_rejected (Board.new 3) 1 1 (by decide) (by decide) (by decide)
      (by decide) (by decide)⟩

/-- C6: from any in-progress game with one consecutive pass already
recorded, the next `pass()` is accepted, the status becomes Ended, and the
winner is decided by area scoring: each colour's total is its stones on the
board plus the capture counter of its index, the higher total wins, equal
totals give no winner. -/
theorem c6_second_pass_ends_game_with_scoring (g : Game)
    (hs : g.status = GameStatus.InProgress) (hp : g.pass_count = 1) :
    (g.pass).1 = Except.ok () ∧
    (g.pass).2.status = GameStatus.Ended ∧
    (g.pass).2.winner =
      (if g.board.stones_on_board Stone.Black + g.captured_stones.1 >
          g.board.stones_on_board Stone.White + g.captured_stones.2 then
        some Stone.Black
       else if g.board.stones_on_board Stone.White + g.captured_stones.2 >
          g.board.stones_on_board Stone.Black + g.captured_stones.1 then
        some Stone.White
       else none) := by
  have hne : ¬ g.status ≠ GameStatus.InProgress := by simp [hs]
  simp [Game.pass, hne, hp, Game.determine_winner]

/-- Board for the concrete scoring scenario of C6: 5 Black stones on row 0,
3 White stones on row 1 of a 5×5 board. -/
def c6Board : Board :=
  (((((((Board.new 5).writeCell 0 0 Stone.Black).writeCell 1 0 Stone.Black).writeCell
    2 0 Stone.Black).writeCell 3 0 Stone.Black).writeCell 4 0 Stone.Black).writeCell
    0 1 Stone.White).writeCell 1 1 Stone.White |>.writeCell 2 1 Stone.White

/-- Game for the concrete scoring scenario of C6: the board above,
cumulative captures black=2 / white=0, one pass already recorded. -/
def c6Game : Game :=
  { Game.new 5 with board := c6Board, captured_stones := (2, 0), pass_count := 1 }

/-- Witness for `c6_second_pass_ends_game_with_scoring`: with 5 Black and 3
White stones and captures (2,0), the scores are 7 and 3 and the second pass
ends the game with winner Black. -/
theorem c6_second_pass_ends_game_with_scoring_witness :
    (c6Game.status = GameStatus.InProgress ∧ c6Game.pass_count = 1) ∧
    c6Game.board.stones_on_board Stone.Black + c6Game.captured_stones.1 = 7 ∧
    c6Game.board.stones_on_board Stone.White + c6Game.captured_stones.2 = 3 ∧
    (c6Game.pass).1 = Except.ok () ∧
    (c6Game.pass).2.status = GameStatus.Ended ∧
    (c6Game.pass).2.winner = some Stone.Black := by
  have h := c6_second_pass_ends_game_with_scoring c6Game (by decide) (by decide)
  refine ⟨⟨by decide, by decide⟩, by decide, by decide, h.1, h.2.1, ?_⟩
  rw [h.2.2]
  decide

/-- An accepted `make_move` from a state with the canonical side flags
(zero passes, in progress, no winner) is inverted exactly by `undo_move`,
and the successor state has the canonical flags again. -/
theorem make_move_accepted_undo (g : Game) (r c : Nat) (g1 : Game)
    (hflags : g.movesOnlyFlags)
    (h : g.make_move r c = (Except.ok (), g1)) :
    g1.undo_move = (some (), g) ∧ g1.movesOnlyFlags := by
  obtain ⟨hpc, hst, hw⟩ := hflags
  have hne : ¬ g.status ≠ GameStatus.InProgress := by simp [hst]
  unfold Game.make_move at h
  rw [if_neg hne] at h
  dsimp only at h
  rcases hps : g.board.place_stone r c
      (if g.current_player then Stone.Black else Stone.White) with ⟨res, b1⟩
  rw [hps] at h
  cases res with
  | error e => simp at h
  | ok u =>
    simp only at h
    injection h with h1 h2
    subst h2
    cases g with
    | mk gb gcp gh gcs gpc gst gw =>
      simp only at hpc hst hw
      subst hpc hst hw
      constructor
      · simp [Game.undo_move, Game.update_captured_stones, Game.reset_pass_count,
              List.getLast?_concat, List.dropLast_concat]
      · exact ⟨rfl, rfl, rfl⟩

/-- Replaying a list of accepted moves from a canonical-flag state is
inverted by as many `undo_move` calls. -/
theorem playAll_undoIter (ms : List (Nat × Nat)) :
    ∀ g h : Game, g.movesOnlyFlags → playAll g ms = some h →
      h.movesOnlyFlags ∧ undoIter h ms.length = g := by
  induction ms with
  | nil =>
    intro g h _ hp
    unfold playAll at hp
    injection hp with hp
    subst hp
    exact ⟨by assumption, rfl⟩
  | cons m tl ih =>
    intro g h hf hp
    unfold playAll at hp
    rcases hmm : g.make_move m.1 m.2 with ⟨res, g1⟩
    rw [hmm] at hp
    cases res with
    | error e => simp at hp
    | ok u =>
      obtain ⟨hundo, hf1⟩ := make_move_accepted_undo g m.1 m.2 g1 hf (by cases u; exact hmm)
      obtain ⟨hfh, hiter⟩ := ih g1 h hf1 hp
      refine ⟨hfh, ?_⟩
      show ((undoIter h tl.length).undo_move).2 = g
      rw [hiter, hundo]

/-- C7: after any sequence of `N` accepted `make_move` calls from a fresh
game of size `n` (and no passes), `N` calls of `undo_move` restore the
initial game exactly — all-Empty board of size `n`, Black to move, zero
captures, empty history — and one further `undo_move` returns the
no-history signal `none` and leaves the state unchanged. -/
theorem c7_undo_restores_initial_state (n : Nat) (ms : List (Nat × Nat)) (g : Game)
    (h : playAll (Game.new n) ms = some g) :
    undoIter g ms.length = Game.new n ∧
    (undoIter g ms.length).undo_move = (none, undoIter g ms.length) := by
  have hflags : (Game.new n).movesOnlyFlags := ⟨rfl, rfl, rfl⟩
  obtain ⟨_, hiter⟩ := playAll_undoIter ms (Game.new n) g hflags h
  refine ⟨hiter, ?_⟩
  rw [hiter]
  rfl

/-- Witness for `c7_undo_restores_initial_state`: one accepted move on a
2×2 board, one undo restores `Game.new 2`, and a further undo is a
no-action signal. -/
theorem c7_undo_restores_initial_state_witness :
    playAll (Game.new 2) [(0, 0)] = some (((Game.new 2).make_move 0 0).2) ∧
    undoIter (((Game.new 2).make_move 0 0).2) 1 = Game.new 2 ∧
    (undoIter (((Game.new 2).make_move 0 0).2) 1).undo_move =
      (none, undoIter (((Game.new 2).make_move 0 0).2) 1) :=
  ⟨by decide,
    (c7_undo_restores_initial_state 2 [(0, 0)] _ (by decide)).1,
    (c7_undo_restores_initial_state 2 [(0, 0)] _ (by decide)).2⟩

/-- C8: whenever `make_move` is rejected — because the game is over or
because the placement is illegal — the undo history has exactly its
pre-call length (a snapshot is pushed and popped again, or never pushed),
and the error of the legality check is propagated to the caller
unchanged. -/
theorem c8_rejected_move_pops_snapshot (g : Game) (r c : Nat) (e : String)
    (h : (g.make_move r c).1 = Except.error e) :
    (g.make_move r c).2.history.length = g.history.length ∧
    (g.status ≠ GameStatus.InProgress → e = "Game is already over") ∧
    (g.status = GameStatus.InProgress →
      (g.board.place_stone r c
          (if g.current_player then Stone.Black else Stone.White)).1 =
        Except.error e) := by
  by_cases hs : g.status = GameStatus.InProgress
  · have hne : ¬ g.status ≠ GameStatus.InProgress := by simp [hs]
    unfold Game.make_move at h ⊢
    rw [if_neg hne] at h ⊢
    dsimp only at h ⊢
    rcases hps : g.board.place_stone r c
        (if g.current_player then Stone.Black else Stone.White) with ⟨res, b1⟩
    cases res with
    | ok u => rw [hps] at h; simp at h
    | error e2 =>
      rw [hps] at h
      simp only at h
      injection h with he
      subst he
      refine ⟨?_, ?_, ?_⟩
      · simp [List.dropLast_concat]
      · intro hcon; exact absurd hs hcon
      · intro _; rfl
  · unfold Game.make_move at h ⊢
    rw [if_pos hs] at h ⊢
    simp only at h
    injection h with he
    subst he
    exact ⟨rfl, fun _ => rfl, fun hcon => absurd hcon hs⟩

/-- Game used for the C8 witness: one accepted Black move at (0,0) on a
2×2 board; the next move at the same point is rejected as occupied. -/
def c8Game : Game := ((Game.new 2).make_move 0 0).2

/-- Witness for `c8_rejected_move_pops_snapshot`: the rejected occupied
move leaves the history at length 1 and surfaces the board error
verbatim. -/
theorem c8_rejected_move_pops_snapshot_witness :
    (c8Game.make_move 0 0).1 = Except.error "Position already occupied" ∧
    c8Game.history.length = 1 ∧
    (c8Game.make_move 0 0).2.history.length = c8Game.history.length ∧
    (c8Game.status = GameStatus.InProgress →
      (c8Game.board.place_stone 0 0
          (if c8Game.current_player then Stone.Black else Stone.White)).1 =
        Except.error "Position already occupied") :=
  ⟨by decide, by decide,
    (c8_rejected_move_pops_snapshot c8Game 0 0 "Position already occupied" (by decide)).1,
    (c8_rejected_move_pops_snapshot c8Game 0 0 "Position already occupied" (by decide)).2.2⟩

end GnuGo
